import Mathlib

/-!
# Verification of the `git-autoconfig` subprocess layer (`src/git/git.ts`)

Shallow embedding of the process-invocation and status-parsing core:

* `parseVersion`, `findSpecificGit`, `findGitDarwin`, `findGitWin32`, `findGit`
  (the Binary Locator);
* `Git.spawn`'s environment construction, `Git._exec`'s exit-code branching and
  stderr classification (the Process Runner);
* `exec`'s three-way join and its listener bookkeeping;
* `Repository.config`'s argument-list construction;
* `Repository.getStatus`'s NUL-delimited status decoding (`readName` loop).

JavaScript effects are made explicit: the outcome of a `cp.spawn` is a value of
`SpawnOutcome`; environment objects are finite maps `String → Option String`
(a missing key is JavaScript `undefined`); a promise that either resolves or
rejects is `Except`.  Where the JavaScript code would fail to terminate (the
unbounded `while` in `readName`) the embedding returns `none`.
-/

namespace GitAutoconfig

/-- The NUL character `'\u0000'` that delimits fields of `git status -z`. -/
def nulChar : Char := '\x00'

/-- `IExecutionResult` from the source: exit code plus buffered stdout/stderr. -/
structure IExecutionResult where
  exitCode : Int
  stdout : String
  stderr : String
deriving DecidableEq, Repr

/-- `IFileStatus` from the source.  `x` and `y` are the results of JavaScript
`charAt`, which yields a one-character string in range and `""` out of range,
so they are modelled as `String`. -/
structure IFileStatus where
  x : String
  y : String
  path : String
  rename : Option String := none
deriving DecidableEq, Repr

/-- Substring containment: `/pat/.test(s)` for a regex that is a plain literal,
as used by the stderr classification in `Git._exec`. -/
def containsSub (s pat : String) : Bool := decide (pat.data <:+: s.data)

/-- The `GitError` value built by `Git._exec` on a non-zero exit (the class's
constructor is applied to a data object with no `error` field, so
`message = data.message`, and the remaining fields are copied through). -/
structure GitError where
  message : String
  stdout : Option String
  stderr : Option String
  exitCode : Option Int
  gitErrorCode : Option String
  gitCommand : Option String
deriving DecidableEq, Repr

/-- What a single `cp.spawn` invocation does, as observed by `exec`'s
three-way join: either the child emits `error` (spawn failure), or it exits
with a code after the two output streams closed with the given buffered
content. -/
inductive SpawnOutcome where
  | spawnError (err : String)
  | exited (code : Int) (stdout : String) (stderr : String)
deriving DecidableEq, Repr

/-- How a `Git._exec` invocation can reject: with the `GitError` it builds on a
non-zero exit, or — since nothing catches the throw of `await exec(child)` —
with the raw spawn `Error` propagated as-is. -/
inductive ExecRejection where
  | git (e : GitError)
  | spawn (err : String)
deriving DecidableEq, Repr

/-- `true` exactly when a `Git._exec` outcome is a rejection carrying a
`GitError`. -/
def rejectsWithGitError : Except ExecRejection IExecutionResult → Bool
  | .error (.git _) => true
  | _ => false

/-- The stderr classification chain of `Git._exec` (lines 330–342): the
first matching literal regex determines `gitErrorCode`; no match leaves it
`undefined`. -/
def classifyStderr (stderr : String) : Option String :=
  if containsSub stderr "Authentication failed" then some "AuthenticationFailed"
  else if containsSub stderr "Not a git repository" then some "NotAGitRepository"
  else if containsSub stderr "bad config file" then some "BadConfigFile"
  else if containsSub stderr "cannot make pipe for command substitution" ||
          containsSub stderr "cannot create standard input pipe" then some "CantCreatePipe"
  else if containsSub stderr "Repository not found" then some "RepositoryNotFound"
  else if containsSub stderr "unable to access" then some "CantAccessRemote"
  else none

/-- Spec-side reading of §7: the fixed substring set in priority order; an
entry may hold several substrings (the pipe pattern of `CantCreatePipe`). -/
def errorPatterns : List (List String × String) :=
  [(["Authentication failed"], "AuthenticationFailed"),
   (["Not a git repository"], "NotAGitRepository"),
   (["bad config file"], "BadConfigFile"),
   (["cannot make pipe for command substitution",
     "cannot create standard input pipe"], "CantCreatePipe"),
   (["Repository not found"], "RepositoryNotFound"),
   (["unable to access"], "CantAccessRemote")]

/-- Spec-side classifier: first pattern (in priority order) with a matching
substring wins; no match leaves the kind unset. -/
def classifyPriority (stderr : String) : Option String :=
  (errorPatterns.find? fun pr => pr.1.any (containsSub stderr)).map (·.2)

/-- `Git._exec` (lines 318–359), given the outcome of the spawned child.
A spawn `error` event rejects the exit-code promise inside `exec` with the raw
`Error`; `_exec` does not catch it, so the rejection value is that error, not
a `GitError`.  Otherwise `if (result.exitCode)` (JavaScript truthiness: any
non-zero number) builds and rejects with a `GitError`; exit code `0` returns
the buffered result.  `gitCommand: args[0]` is `undefined` on an empty
argument list, hence `args.head?`. -/
def execModel (args : List String) (outcome : SpawnOutcome) :
    Except ExecRejection IExecutionResult :=
  match outcome with
  | .spawnError err => .error (.spawn err)
  | .exited code stdout stderr =>
    if code ≠ 0 then
      .error (.git
        { message := "Failed to execute git"
          stdout := some stdout
          stderr := some stderr
          exitCode := some code
          gitErrorCode := classifyStderr stderr
          gitCommand := args.head? })
    else
      .ok { exitCode := code, stdout := stdout, stderr := stderr }

/-! ## Environment construction in `Git.spawn` -/

/-- `Object.assign(base, override)` on environment objects viewed as finite
maps: a key present in `override` shadows `base`. -/
def objAssign (base override : String → Option String) : String → Option String :=
  fun k => match override k with
    | some v => some v
    | none => base k

/-- The two fixed variables `Git.spawn` always sets: the subcommand marker and
the fixed locale. -/
def fixedVars (cmd : Option String) : String → Option String :=
  fun k =>
    if k = "VSCODE_GIT_COMMAND" then cmd
    else if k = "LANG" then some "en_US.UTF-8"
    else none

/-- The subprocess environment built by `Git.spawn` (line 374):
`Object.assign({}, process.env, options.env || {}, { VSCODE_GIT_COMMAND: args[0],
LANG: 'en_US.UTF-8' })` — later sources shadow earlier ones, so the two fixed
variables are applied last.  (`args[0]` is `undefined` for an empty argument
list; the map model conflates a key assigned `undefined` with an absent key,
so statements about the marker key quantify over non-empty argument lists —
every call site passes a subcommand.) -/
def spawnEnv (processEnv callerEnv : String → Option String) (args : List String) :
    String → Option String :=
  objAssign (objAssign processEnv callerEnv) (fixedVars args.head?)

/-- The environment §4.2 of the spec describes: inherited environment overlaid
with the two fixed variables overlaid with the caller's overrides, caller
winning ties.  Kept separate from `spawnEnv` so the two can be compared. -/
def specEnv (processEnv callerEnv : String → Option String) (args : List String) :
    String → Option String :=
  objAssign (objAssign processEnv (fixedVars args.head?)) callerEnv

/-- A caller override map that sets `LANG`, used to separate `spawnEnv` from
`specEnv`. -/
def callerLangC : String → Option String :=
  fun k => if k = "LANG" then some "C" else none

/-- An empty inherited environment. -/
def emptyEnv : String → Option String := fun _ => none

/-! ## `Repository.config` argument construction -/

/-- The argument list built by `Repository.config` (lines 428–439): `config`,
then `--<scope>` if `scope` is truthy (a non-empty string), then the key, then
the value only if it is truthy (supplied and non-empty). -/
def configArgs (scope key : String) (value : Option String) : List String :=
  let args := ["config"]
  let args := if scope ≠ "" then args ++ ["--" ++ scope] else args
  let args := args ++ [key]
  match value with
  | some v => if v ≠ "" then args ++ [v] else args
  | none => args

/-! ## `Repository.getStatus` (lines 445–483) -/

/-- JavaScript `status.charAt(i)`: the one-character string at index `i`, or
`""` out of range. -/
def jsCharAt (l : List Char) (i : Nat) : String :=
  match l[i]? with
  | some c => String.singleton c
  | none => ""

/-- Offset of the first NUL character, if any — the distance travelled by the
`while ((c = status.charAt(i)) !== '\u0000') i++;` loop of `readName` before
it exits.  When the list holds no NUL the loop never exits (out of range,
`charAt` returns `""`, which still differs from `'\u0000'`): `none`. -/
def scanToNul : List Char → Option Nat
  | [] => none
  | c :: rest => if c = nulChar then some 0 else (scanToNul rest).map (· + 1)

/-- `readName` (lines 452–457): scan from `i` for the NUL terminator, return
the field `status.substring(start, i)` and the cursor one past the NUL
(`i++` in the return expression).  `none` models the divergence of the
JavaScript loop when no terminator exists at or after `i`. -/
def readName (l : List Char) (i : Nat) : Option (String × Nat) :=
  match scanToNul (l.drop i) with
  | some k => some (String.mk ((l.drop i).take k), i + k + 1)
  | none => none

/-- One iteration of the `getStatus` scanning loop (lines 460–472): read the
two status characters (`charAt(i++)` twice), skip the separator (`i++`), read
the rename-source field first when the index status is `R`, then read the
primary path.  Returns the entry and the cursor position after the record. -/
def parseRecord (l : List Char) (i : Nat) : Option (IFileStatus × Nat) :=
  let x := jsCharAt l i
  let y := jsCharAt l (i + 1)
  if x = "R" then
    match readName l (i + 3) with
    | some (rn, i2) =>
      match readName l i2 with
      | some (p, i3) => some ({ x := x, y := y, path := p, rename := some rn }, i3)
      | none => none
    | none => none
  else
    match readName l (i + 3) with
    | some (p, i3) => some ({ x := x, y := y, path := p }, i3)
    | none => none

theorem scanToNul_some_lt {l : List Char} {k : Nat} (h : scanToNul l = some k) :
    k < l.length := by
  induction l generalizing k with
  | nil => simp [scanToNul] at h
  | cons c rest ih =>
    rw [scanToNul] at h
    by_cases hc : c = nulChar
    · rw [if_pos hc] at h
      simp only [Option.some.injEq] at h
      simp only [List.length_cons]
      omega
    · rw [if_neg hc] at h
      simp only [Option.map_eq_some'] at h
      obtain ⟨k', hk', rfl⟩ := h
      have := ih hk'
      simp only [List.length_cons]
      omega

theorem readName_bounds {l : List Char} {i i' : Nat} {s : String}
    (h : readName l i = some (s, i')) : i < i' ∧ i' ≤ l.length := by
  rw [readName] at h
  cases hs : scanToNul (l.drop i) with
  | none => rw [hs] at h; simp at h
  | some k =>
    rw [hs] at h
    have hk := scanToNul_some_lt hs
    rw [List.length_drop] at hk
    simp at h
    omega

theorem parseRecord_bounds {l : List Char} {i i' : Nat} {e : IFileStatus}
    (h : parseRecord l i = some (e, i')) : i + 3 < i' ∧ i' ≤ l.length := by
  by_cases hx : jsCharAt l i = "R"
  · cases h1 : readName l (i + 3) with
    | none => simp [parseRecord, hx, h1] at h
    | some v =>
      obtain ⟨rn, i2⟩ := v
      have hb1 := readName_bounds h1
      cases h2 : readName l i2 with
      | none => simp [parseRecord, hx, h1, h2] at h
      | some w =>
        obtain ⟨p, i3⟩ := w
        have hb2 := readName_bounds h2
        simp [parseRecord, hx, h1, h2] at h
        obtain ⟨-, rfl⟩ := h
        omega
  · cases h1 : readName l (i + 3) with
    | none => simp [parseRecord, hx, h1] at h
    | some v =>
      obtain ⟨p, i3⟩ := v
      have hb1 := readName_bounds h1
      simp [parseRecord, hx, h1] at h
      obtain ⟨-, rfl⟩ := h
      omega

/-- The scanning loop of `getStatus` (lines 459–480): parse records while
`i < status.length`, dropping entries whose path's last character is `/`
(`current.path[current.path.length - 1] === '/'`; an empty path has no last
character and is kept).  `none` propagates the divergence of `readName`. -/
def statusLoop (l : List Char) (i : Nat) : Option (List IFileStatus) :=
  if h : i < l.length then
    match hr : parseRecord l i with
    | some (e, i') =>
      match statusLoop l i' with
      | some rest =>
        if e.path.data.getLast? = some '/' then some rest else some (e :: rest)
      | none => none
    | none => none
  else
    some []
termination_by l.length - i
decreasing_by
  have := parseRecord_bounds hr
  omega

/-- `Repository.getStatus`'s parse of the buffered stdout (lines 448–482),
starting from cursor `0`. `none` marks an input on which the JavaScript code
never terminates. -/
def getStatus (stdout : String) : Option (List IFileStatus) :=
  statusLoop stdout.data 0

/-! ## The status wire format (§6) and the expected parse -/

/-- A status record on the wire: two status characters, an optional
rename-source (present exactly when the index status is `R`) and a path. -/
structure StatusRecord where
  x : Char
  y : Char
  rename : Option String := none
  path : String
deriving DecidableEq, Repr

/-- Serialization of one record (§6): 2 status bytes, 1 separator byte,
optional NUL-terminated rename source, NUL-terminated path. -/
def serializeRecord (r : StatusRecord) : List Char :=
  [r.x, r.y, ' '] ++
    (match r.rename with
     | some rn => rn.data ++ [nulChar]
     | none => []) ++ r.path.data ++ [nulChar]

/-- A whole NUL-delimited status text: the records in sequence, with no
delimiter other than each field's own terminator. -/
def statusText (rs : List StatusRecord) : List Char :=
  (rs.map serializeRecord).flatten

/-- Well-formedness of a record: its fields contain no NUL and the rename
source is present exactly when the index status is the rename marker `R`. -/
def wfRecord (r : StatusRecord) : Bool :=
  decide (nulChar ∉ r.path.data) &&
    match r.rename with
    | some rn => decide (r.x = 'R') && decide (nulChar ∉ rn.data)
    | none => decide (r.x ≠ 'R')

/-- The `IFileStatus` entry the parser is expected to produce for a record. -/
def toEntry (r : StatusRecord) : IFileStatus :=
  { x := String.singleton r.x
    y := String.singleton r.y
    path := r.path
    rename := r.rename }

/-- A record is a directory marker (nested repository) when its path ends in
the path separator `/`. -/
def isDirMarker (r : StatusRecord) : Bool := r.path.data.getLast? = some '/'

/-- The entry list §8 predicts: one entry per non-directory-marker record, in
input order. -/
def expectedEntries (rs : List StatusRecord) : List IFileStatus :=
  (rs.filter fun r => !isDirMarker r).map toEntry

/-! ## The Binary Locator (`findGit` and its discovery strategies) -/

/-- `IGit` from the source: the located binary's path and version. -/
structure IGit where
  path : String
  version : String
deriving DecidableEq, Repr

/-- `process.platform` values the `findGit` switch distinguishes. -/
inductive Platform where
  | darwin
  | win32
  | other
deriving DecidableEq, Repr

/-- The host effects the Binary Locator performs, each recorded as the value
the corresponding call would produce:

* `platform` — `process.platform`;
* `getEnv` — `process.env[name]` (`none` is an unset variable);
* `spawnVersion p` — the outcome of `cp.spawn(p, ['--version'])` as observed
  by `findSpecificGit`;
* `whichGit` — `cp.exec('which git')`, `.error` when the callback gets `err`;
* `gitVersionCmd` — `cp.exec('git --version')` inside `findGitDarwin`;
* `xcodeSelectErr` — the error of `cp.exec('xcode-select -p')` (`none` means
  the command succeeded, `some c` an error object with `code = c`);
* `readdirGitHub` — `fs.readdir` of the per-user `GitHub` directory. -/
structure SysWorld where
  platform : Platform
  getEnv : String → Option String
  spawnVersion : String → SpawnOutcome
  whichGit : Except Unit String
  gitVersionCmd : Except Unit String
  xcodeSelectErr : Option Int
  readdirGitHub : Except Unit (List String)

/-- JavaScript `String.prototype.trim` (and the equivalent
`replace(/^\s+|\s+$/g, '')` used on the `which git` output): strip
whitespace from both ends. -/
def jsTrim (s : String) : String :=
  String.mk (((s.data.dropWhile Char.isWhitespace).reverse.dropWhile
    Char.isWhitespace).reverse)

/-- `parseVersion` (line 72): `raw.replace(/^git version /, '')` strips the
anchored literal `git version ` label when present. -/
def parseVersion (raw : String) : String :=
  if "git version ".data.isPrefixOf raw.data then
    String.mk (raw.data.drop "git version ".data.length)
  else raw

/-- `findSpecificGit` (lines 76–84): spawn `path --version`; a spawn error
rejects with it, a non-zero exit rejects with `Not found`, otherwise resolve
with the path and parsed version from the buffered stdout. -/
def findSpecificGit (path : String) (w : SysWorld) : Except String IGit :=
  match w.spawnVersion path with
  | .spawnError err => .error err
  | .exited code stdout _ =>
    if code ≠ 0 then .error "Not found"
    else .ok { path := path, version := parseVersion (jsTrim stdout) }

/-- `findGitDarwin` (lines 86–123): resolve via `which git`; when the result
is the `/usr/bin/git` stub, first check `xcode-select -p` (an error object
with `code === 2` means git is not installed); then verify `git --version`
executes and parse its output. -/
def findGitDarwin (w : SysWorld) : Except String IGit :=
  match w.whichGit with
  | .error _ => .error "git not found"
  | .ok raw =>
    let path := jsTrim raw
    let getVersion : Except String IGit :=
      match w.gitVersionCmd with
      | .error _ => .error "git not found"
      | .ok stdout => .ok { path := path, version := parseVersion (jsTrim stdout) }
    if path ≠ "/usr/bin/git" then getVersion
    else
      match w.xcodeSelectErr with
      | some 2 => .error "git not found"
      | _ => getVersion

/-- `findSystemGitWin32` (lines 125–131): reject on a falsy base (unset or
empty environment variable), otherwise probe `<base>\Git\cmd\git.exe`. -/
def findSystemGitWin32 (base : Option String) (w : SysWorld) : Except String IGit :=
  match base with
  | none => .error "Not found"
  | some b =>
    if b = "" then .error "Not found"
    else findSpecificGit (b ++ "\\Git\\cmd\\git.exe") w

/-- `findGitHubGitWin32` (lines 133–145): list the per-user `GitHub`
directory, take the first child matching `/^PortableGit/`, and probe its
`cmd\git.exe`.  (`path.join(process.env['LOCALAPPDATA'], 'GitHub')` throws
when the variable is unset, surfacing as a rejection.) -/
def findGitHubGitWin32 (w : SysWorld) : Except String IGit :=
  match w.getEnv "LOCALAPPDATA" with
  | none => .error "Not found"
  | some localAppData =>
    match w.readdirGitHub with
    | .error _ => .error "Not found"
    | .ok children =>
      match children.filter (·.startsWith "PortableGit") with
      | [] => .error "Not found"
      | git :: _ =>
        findSpecificGit (localAppData ++ "\\GitHub\\" ++ git ++ "\\cmd\\git.exe") w

/-- `p.then(void 0, () => q)`: pass a resolution through, recover from a
rejection by running the fallback. -/
def orTry (p : Except String IGit) (q : Except String IGit) : Except String IGit :=
  match p with
  | .ok g => .ok g
  | .error _ => q

/-- `findGitWin32` (lines 147–153): the five-strategy fallback chain. -/
def findGitWin32 (w : SysWorld) : Except String IGit :=
  orTry (findSystemGitWin32 (w.getEnv "ProgramW6432") w)
    (orTry (findSystemGitWin32 (w.getEnv "ProgramFiles(x86)") w)
      (orTry (findSystemGitWin32 (w.getEnv "ProgramFiles") w)
        (orTry (findSpecificGit "git" w)
          (findGitHubGitWin32 w))))

/-- The platform switch in the rejection handler of `findGit`
(lines 158–164). -/
def platformDispatch (w : SysWorld) : Except String IGit :=
  match w.platform with
  | .darwin => findGitDarwin w
  | .win32 => findGitWin32 w
  | .other => findSpecificGit "git" w

/-- `findGit` (lines 155–165): probe the hint if provided (no hint is an
immediately rejected promise), and on any failure of that first promise fall
through to the platform dispatch. -/
def findGit (hint : Option String) (w : SysWorld) : Except String IGit :=
  let first := match hint with
    | some h => findSpecificGit h w
    | none => .error "null"
  orTry first (platformDispatch w)

/-! ## Listener bookkeeping of `exec` (lines 174–207) -/

/-- One listener registration made by `exec`'s `once`/`on` helpers: the
emitter and event it is attached to, and whether it was registered with
`ee.once` (the emitter removes such a listener itself when the event first
fires) rather than `ee.on`. -/
structure Registration where
  emitter : String
  event : String
  once : Bool
deriving DecidableEq, Repr

/-- The six registrations `exec` makes for its three-way join, in order
(lines 188–201): `once(child, 'error')`, `once(child, 'exit')`,
`on(child.stdout, 'data')`, `once(child.stdout, 'close')`,
`on(child.stderr, 'data')`, `once(child.stderr, 'close')`. -/
def execRegistrations : List Registration :=
  [⟨"child", "error", true⟩, ⟨"child", "exit", true⟩,
   ⟨"child.stdout", "data", false⟩, ⟨"child.stdout", "close", true⟩,
   ⟨"child.stderr", "data", false⟩, ⟨"child.stderr", "close", true⟩]

/-- The `once`-relevant events that have fired by the time the
`Promise.all` join settles.  On a normal exit all three join promises have
resolved, so `exit` and both `close` events fired (`data` events are `on`
registrations and are never auto-removed however often they fire).  On a
spawn failure the `error` event rejects the first promise and the join
settles at once. -/
def firedOnceEvents : SpawnOutcome → List (String × String)
  | .spawnError _ => [("child", "error")]
  | .exited _ _ _ => [("child", "exit"), ("child.stdout", "close"), ("child.stderr", "close")]

/-- Listeners of the invocation still attached at settlement of the join:
every registration except the `once` ones whose event has fired. -/
def listenersAfterJoin (o : SpawnOutcome) : List Registration :=
  execRegistrations.filter fun r =>
    !(r.once && (firedOnceEvents o).contains (r.emitter, r.event))

/-- `dispose(disposables)` (lines 20–23, 204): run every collected removal
thunk; `removeListener` detaches the listener when still attached and is a
no-op otherwise. -/
def disposeAll (regs remaining : List Registration) : List Registration :=
  remaining.filter fun r => !(regs.contains r)

/-- `exec` (lines 174–207) at settlement: the settled value of its promise
together with the listeners registered by this invocation that remain
attached.  When the join resolves, execution continues to
`dispose(disposables)` (line 204) and the result is returned; when the join
rejects (the child's `error` event), the `await` on line 187 throws, `exec`'s
promise rejects with the spawn error, and the `dispose` statement is never
reached. -/
def execSettle (o : SpawnOutcome) : Except String IExecutionResult × List Registration :=
  match o with
  | .exited code stdout stderr =>
    (.ok { exitCode := code, stdout := stdout, stderr := stderr },
      disposeAll execRegistrations (listenersAfterJoin o))
  | .spawnError err => (.error err, listenersAfterJoin o)

/-! ## Parser correctness lemmas -/

theorem singleton_eq_R_iff {c : Char} : String.singleton c = "R" ↔ c = 'R' := by
  constructor
  · intro h
    have hd := congrArg String.data h
    rw [String.data_singleton] at hd
    simpa using hd
  · rintro rfl
    rfl

theorem jsCharAt_zero_of_drop {l : List Char} {i : Nat} {c : Char} {rest : List Char}
    (hdrop : l.drop i = c :: rest) : jsCharAt l i = String.singleton c := by
  have h0 : l[i]? = some c := by
    have := List.getElem?_drop l i 0
    rw [hdrop] at this
    simpa using this.symm
  rw [jsCharAt, h0]

theorem jsCharAt_one_of_drop {l : List Char} {i : Nat} {c d : Char} {rest : List Char}
    (hdrop : l.drop i = c :: d :: rest) : jsCharAt l (i + 1) = String.singleton d := by
  have h1 : l[i + 1]? = some d := by
    have := List.getElem?_drop l i 1
    rw [hdrop] at this
    simpa using this.symm
  rw [jsCharAt, h1]

theorem drop_add_of_drop {l : List Char} {i : Nat} {pre rest : List Char}
    (hdrop : l.drop i = pre ++ rest) : l.drop (i + pre.length) = rest := by
  rw [← List.drop_drop, hdrop, List.drop_left]

theorem scanToNul_append (name suffix : List Char) (h : nulChar ∉ name) :
    scanToNul (name ++ nulChar :: suffix) = some name.length := by
  induction name with
  | nil => simp [scanToNul]
  | cons c rest ih =>
    have hc : ¬ c = nulChar := fun hc => h (hc ▸ List.mem_cons_self c rest)
    rw [List.cons_append, scanToNul, if_neg hc,
      ih fun hm => h (List.mem_cons_of_mem c hm)]
    rfl

theorem readName_of_drop {l : List Char} {j : Nat} {name suffix : List Char}
    (hdrop : l.drop j = name ++ nulChar :: suffix) (h : nulChar ∉ name) :
    readName l j = some (String.mk name, j + name.length + 1) := by
  rw [readName, hdrop, scanToNul_append name suffix h]
  simp [List.take_left]

/-- Parsing one non-rename record: any two status characters `x ≠ 'R'` and
`y`, any separator byte, then the NUL-terminated path. -/
theorem parseRecord_at {l : List Char} {i : Nat} {x y sep : Char} {p : String}
    {suffix : List Char} (hx : x ≠ 'R') (hp : nulChar ∉ p.data)
    (hdrop : l.drop i = x :: y :: sep :: (p.data ++ nulChar :: suffix)) :
    parseRecord l i
      = some ({ x := String.singleton x, y := String.singleton y, path := p },
          i + 3 + p.length + 1) := by
  have hcx := jsCharAt_zero_of_drop hdrop
  have hcy := jsCharAt_one_of_drop hdrop
  have hxn : ¬ jsCharAt l i = "R" := by
    rw [hcx]
    exact fun h => hx (singleton_eq_R_iff.mp h)
  have hdrop3 : l.drop (i + 3) = p.data ++ nulChar :: suffix :=
    @drop_add_of_drop l i [x, y, sep] _ hdrop
  have hrd := readName_of_drop hdrop3 hp
  rw [parseRecord]
  simp only [hxn, if_neg, ite_false, hrd, hcx, hcy]
  have hsx : ¬ String.singleton x = "R" := fun h => hx (singleton_eq_R_iff.mp h)
  rw [if_neg hsx]
  rfl

/-- Parsing one rename record: index status `R`, any worktree status and
separator byte, then the NUL-terminated rename source and the NUL-terminated
primary path. -/
theorem parseRecord_at_rename {l : List Char} {i : Nat} {y sep : Char} {rn p : String}
    {suffix : List Char} (hrn : nulChar ∉ rn.data) (hp : nulChar ∉ p.data)
    (hdrop : l.drop i
      = 'R' :: y :: sep :: (rn.data ++ nulChar :: (p.data ++ nulChar :: suffix))) :
    parseRecord l i
      = some ({ x := "R", y := String.singleton y, path := p, rename := some rn },
          i + 3 + (rn.length + 1) + (p.length + 1)) := by
  have hcx := jsCharAt_zero_of_drop hdrop
  have hcy := jsCharAt_one_of_drop hdrop
  have hxr : jsCharAt l i = "R" := by rw [hcx]; rfl
  have hdrop3 : l.drop (i + 3) = rn.data ++ nulChar :: (p.data ++ nulChar :: suffix) :=
    @drop_add_of_drop l i ['R', y, sep] _ hdrop
  have hrd1 := readName_of_drop hdrop3 hrn
  have hdrop2 : l.drop (i + 3 + rn.data.length + 1) = p.data ++ nulChar :: suffix := by
    have : l.drop ((i + 3) + (rn.data ++ [nulChar]).length) = p.data ++ nulChar :: suffix := by
      refine @drop_add_of_drop l (i + 3) (rn.data ++ [nulChar]) _ ?_
      simpa using hdrop3
    simpa using this
  have hrd2 := readName_of_drop hdrop2 hp
  rw [parseRecord]
  simp only [hxr, ite_true, hrd1, hrd2, hcy]
  congr 2

theorem serializeRecord_ne_nil (r : StatusRecord) : serializeRecord r ≠ [] := by
  simp [serializeRecord]

/-- The scanning loop, run from any cursor whose remaining input is the
serialization of a list of well-formed records, produces exactly one entry per
non-directory-marker record, in order. -/
theorem statusLoop_of_drop (rs : List StatusRecord) :
    (∀ r ∈ rs, wfRecord r = true) → ∀ (l : List Char) (i : Nat),
      l.drop i = statusText rs → statusLoop l i = some (expectedEntries rs) := by
  induction rs with
  | nil =>
    intro _ l i hdrop
    have hle : l.length ≤ i := List.drop_eq_nil_iff.mp (by simpa [statusText] using hdrop)
    rw [statusLoop.eq_def, dif_neg (by omega)]
    simp [expectedEntries]
  | cons r rs ih =>
    intro hwf l i hdrop
    have hwr := hwf r (List.mem_cons_self r rs)
    have hwrs : ∀ q ∈ rs, wfRecord q = true := fun q hq => hwf q (List.mem_cons_of_mem r hq)
    have hst : statusText (r :: rs) = serializeRecord r ++ statusText rs := by
      simp [statusText]
    rw [hst] at hdrop
    have hlt : i < l.length := by
      by_contra hc
      have hnil : l.drop i = [] := List.drop_eq_nil_of_le (by omega)
      rw [hnil] at hdrop
      exact serializeRecord_ne_nil r (List.append_eq_nil.mp hdrop.symm).1
    have hparse : parseRecord l i = some (toEntry r, i + (serializeRecord r).length) := by
      cases hrn : r.rename with
      | none =>
        have hw : nulChar ∉ r.path.data ∧ r.x ≠ 'R' := by
          simpa [wfRecord, hrn] using hwr
        have hd2 : l.drop i
            = r.x :: r.y :: ' ' :: (r.path.data ++ nulChar :: statusText rs) := by
          rw [hdrop]
          simp [serializeRecord, hrn]
        have hpair :
            ({ x := String.singleton r.x, y := String.singleton r.y, path := r.path }
              : IFileStatus) = toEntry r := by
          simp [toEntry, hrn]
        have hpos : i + 3 + r.path.length + 1 = i + (serializeRecord r).length := by
          have h1 : r.path.length = r.path.data.length := rfl
          have h2 : (serializeRecord r).length = r.path.data.length + 4 := by
            simp [serializeRecord, hrn]
          omega
        rw [parseRecord_at hw.2 hw.1 hd2, hpair, hpos]
      | some rn =>
        have hw : nulChar ∉ r.path.data ∧ r.x = 'R' ∧ nulChar ∉ rn.data := by
          simpa [wfRecord, hrn] using hwr
        have hd2 : l.drop i = 'R' :: r.y :: ' ' ::
            (rn.data ++ nulChar :: (r.path.data ++ nulChar :: statusText rs)) := by
          rw [hdrop]
          simp [serializeRecord, hrn, hw.2.1]
        have hpair :
            ({ x := "R", y := String.singleton r.y, path := r.path, rename := some rn }
              : IFileStatus) = toEntry r := by
          simp [toEntry, hrn, hw.2.1]
          rfl
        have hpos : i + 3 + (rn.length + 1) + (r.path.length + 1)
            = i + (serializeRecord r).length := by
          have h1 : r.path.length = r.path.data.length := rfl
          have h2 : rn.length = rn.data.length := rfl
          have h3 : (serializeRecord r).length
              = r.path.data.length + rn.data.length + 5 := by
            simp [serializeRecord, hrn]
            omega
          omega
        rw [parseRecord_at_rename hw.2.2 hw.1 hd2, hpair, hpos]
    have hdrop' : l.drop (i + (serializeRecord r).length) = statusText rs :=
      drop_add_of_drop hdrop
    have hrec := ih hwrs l (i + (serializeRecord r).length) hdrop'
    rw [statusLoop.eq_def, dif_pos hlt]
    split
    · rename_i e i' heq
      rw [hparse] at heq
      simp only [Option.some.injEq, Prod.mk.injEq] at heq
      obtain ⟨rfl, rfl⟩ := heq
      split
      · rename_i rest hrest
        rw [hrec] at hrest
        simp only [Option.some.injEq] at hrest
        subst hrest
        have hcond : ((toEntry r).path.data.getLast? = some '/') ↔ isDirMarker r = true := by
          simp [toEntry, isDirMarker]
        by_cases hdm : isDirMarker r = true
        · rw [if_pos (hcond.mpr hdm)]
          simp [expectedEntries, List.filter_cons, hdm]
        · rw [if_neg fun hcl => hdm (hcond.mp hcl)]
          simp [expectedEntries, List.filter_cons, hdm]
      · rename_i hrest
        rw [hrec] at hrest
        exact absurd hrest (by simp)
    · rename_i heq
      rw [hparse] at heq
      exact absurd heq (by simp)

/-- If the record at the cursor cannot be scanned (its path field lacks a NUL
terminator, so `readName` diverges), the whole scan diverges. -/
theorem statusLoop_none_of_parse_none {l : List Char} {i : Nat} (hlt : i < l.length)
    (hp : parseRecord l i = none) : statusLoop l i = none := by
  rw [statusLoop.eq_def, dif_pos hlt]
  split
  · rename_i e i' heq
    rw [hp] at heq
    cases heq
  · rfl

/-- Splitting a list's length by a Boolean predicate, subtraction form. -/
theorem length_filter_not {α : Type} (p : α → Bool) (l : List α) :
    (l.filter fun a => !p a).length = l.length - (l.filter p).length := by
  induction l with
  | nil => rfl
  | cons a t ih =>
    have hle := List.length_filter_le p t
    by_cases h : p a = true <;> simp [List.filter_cons, h, ih] <;> omega

/-- The spec-side priority-ordered classifier agrees with the source's
if-chain on every stderr text. -/
theorem classifyPriority_eq (s : String) : classifyPriority s = classifyStderr s := by
  rw [classifyPriority, errorPatterns, classifyStderr]
  by_cases h1 : containsSub s "Authentication failed" <;>
  by_cases h2 : containsSub s "Not a git repository" <;>
  by_cases h3 : containsSub s "bad config file" <;>
  by_cases h4 : containsSub s "cannot make pipe for command substitution" <;>
  by_cases h5 : containsSub s "cannot create standard input pipe" <;>
  by_cases h6 : containsSub s "Repository not found" <;>
  by_cases h7 : containsSub s "unable to access" <;>
  simp [List.find?, h1, h2, h3, h4, h5, h6, h7]

/-! ## Concrete hosts and inputs used in the analysis -/

/-- A host on a generic platform where the explicitly hinted path `/bad/git`
cannot be spawned (`ENOENT`) but the bare `git` on the search path works. -/
def hintFailWorld : SysWorld :=
  { platform := .other
    getEnv := fun _ => none
    spawnVersion := fun p =>
      if p = "git" then .exited 0 "git version 2.39.0\n" "" else .spawnError "ENOENT"
    whichGit := .error ()
    gitVersionCmd := .error ()
    xcodeSelectErr := none
    readdirGitHub := .error () }

/-- The status record for one `(statusX, statusY, path)` triple of the
round-trip property (no rename field). -/
def tripleRecord (t : Char × Char × String) : StatusRecord :=
  { x := t.1, y := t.2.1, rename := none, path := t.2.2 }

/-- Three concrete status records — a modification, a nested-repository
directory marker, and an addition — used to instantiate the parser
theorems. -/
def sampleRecords : List StatusRecord :=
  [{ x := 'M', y := ' ', rename := none, path := "a.txt" },
   { x := '?', y := '?', rename := none, path := "vendor/" },
   { x := 'A', y := ' ', rename := none, path := "b.txt" }]

/-- Two concrete `(statusX, statusY, path)` triples for the round-trip
instance. -/
def sampleTriples : List (Char × Char × String) :=
  [('M', ' ', "src/main.ts"), ('?', '?', "notes.md")]

/-! ## Claim C1 — `Git._exec` outcome dichotomy -/

/-- C1, counterexample: a spawn-level failure (`ENOENT`) makes `Git._exec`
reject, but with the raw spawn error rather than a `GitError`, so the claim
that a failed spawn "rejects with a ProcessError (GitError)" is false. -/
theorem c1_spawn_error_is_not_gitError :
    execModel ["status"] (.spawnError "ENOENT") = .error (.spawn "ENOENT") ∧
      rejectsWithGitError (execModel ["status"] (.spawnError "ENOENT")) = false := by
  constructor <;> rfl

/-- C1, amended: the outcomes of one `Git._exec` invocation are mutually
exclusive — when the child exits, the buffered `IExecutionResult` is returned
exactly for exit code `0` and every non-zero exit code rejects with a
`GitError`; when spawning fails, the call rejects with the underlying spawn
error (not a `GitError`).  An `IExecutionResult` is never returned for a
non-zero exit code and a zero exit never produces an error. -/
theorem c1_exec_dichotomy (args : List String) (code : Int) (out err e : String) :
    (execModel args (.exited code out err)
        = .ok { exitCode := code, stdout := out, stderr := err } ↔ code = 0) ∧
    (rejectsWithGitError (execModel args (.exited code out err)) = true ↔ code ≠ 0) ∧
    execModel args (.spawnError e) = .error (.spawn e) := by
  refine ⟨⟨?_, ?_⟩, ⟨?_, ?_⟩, rfl⟩
  · intro h
    by_contra hc
    rw [execModel] at h
    simp [hc] at h
  · intro h
    subst h
    simp [execModel]
  · intro h hc
    subst hc
    simp [execModel, rejectsWithGitError] at h
  · intro h
    simp [execModel, rejectsWithGitError, h]

/-! ## Claim C2 — the environment built by `Git.spawn` -/

/-- C2, counterexample: with a caller override `LANG=C`, the environment
`Git.spawn` builds still maps `LANG` to the fixed locale — the fixed
variable wins the tie, not the caller override; `specEnv`, the merge order
the claim describes, gives the caller's value, so the two differ. -/
theorem c2_fixed_vars_beat_caller_override :
    spawnEnv emptyEnv callerLangC ["status"] "LANG" = some "en_US.UTF-8" ∧
    specEnv emptyEnv callerLangC ["status"] "LANG" = some "C" ∧
    spawnEnv emptyEnv callerLangC ["status"] "LANG"
      ≠ specEnv emptyEnv callerLangC ["status"] "LANG" := by
  refine ⟨rfl, rfl, ?_⟩
  decide

/-- C2, amended: for a non-empty argument list the subprocess environment is
the inherited environment overlaid with the caller's overrides overlaid with
the two fixed variables, so the fixed variables win ties: the subcommand
marker key always maps to the subcommand and `LANG` always to the fixed
locale, and every other key takes the caller's override when present and the
inherited value otherwise. -/
theorem c2_spawn_env_priority (processEnv callerEnv : String → Option String)
    (cmd : String) (rest : List String) (k : String) :
    spawnEnv processEnv callerEnv (cmd :: rest) k =
      if k = "VSCODE_GIT_COMMAND" then some cmd
      else if k = "LANG" then some "en_US.UTF-8"
      else
        match callerEnv k with
        | some v => some v
        | none => processEnv k := by
  by_cases h1 : k = "VSCODE_GIT_COMMAND"
  · simp [spawnEnv, objAssign, fixedVars, h1]
  · by_cases h2 : k = "LANG"
    · simp [spawnEnv, objAssign, fixedVars, h1, h2]
    · simp [spawnEnv, objAssign, fixedVars, h1, h2]

/-! ## Claim C3 — hint failure in `findGit` -/

/-- C3, counterexample: on a host where the explicitly supplied hint fails to
spawn, `findGit` does not fail — it succeeds through the platform fallback
(the generic-platform `git` lookup), contradicting the claim that locate
fails without attempting any fallback strategy. -/
theorem c3_hint_failure_still_succeeds :
    findSpecificGit "/bad/git" hintFailWorld = .error "ENOENT" ∧
    findGit (some "/bad/git") hintFailWorld
      = .ok { path := "git", version := "2.39.0" } := by
  constructor <;> rfl

/-- C3, amended: whenever the version-query spawn of an explicitly supplied
hint fails, `findGit` falls through to the platform-specific discovery and
returns exactly its result, instead of failing outright. -/
theorem c3_hint_failure_falls_back (hint : String) (w : SysWorld) (e : String)
    (h : findSpecificGit hint w = .error e) :
    findGit (some hint) w = platformDispatch w := by
  rw [findGit, h]
  rfl

/-- C3, witness: the amended fallback theorem applied on `hintFailWorld`. -/
theorem c3_witness :
    findGit (some "/bad/git") hintFailWorld = platformDispatch hintFailWorld :=
  c3_hint_failure_falls_back "/bad/git" hintFailWorld "ENOENT" (by rfl)

/-! ## Claim C4 — one entry per non-directory-marker record -/

/-- C4: parsing a well-formed NUL-delimited status text produces exactly one
`IFileStatus` entry per record whose path does not end in the path separator,
in input order; directory-marker records contribute no entry, so the output
length equals the record count minus the directory-marker count. -/
theorem c4_entries_per_record (rs : List StatusRecord)
    (h : ∀ r ∈ rs, wfRecord r = true) :
    getStatus (String.mk (statusText rs)) = some (expectedEntries rs) ∧
    (expectedEntries rs).length = rs.length - (rs.filter isDirMarker).length := by
  constructor
  · exact statusLoop_of_drop rs h (statusText rs) 0 rfl
  · rw [expectedEntries, List.length_map, length_filter_not]

/-- C4, witness: the parser theorem on three concrete records, one of them a
directory marker. -/
theorem c4_witness :
    (∀ r ∈ sampleRecords, wfRecord r = true) ∧
    (getStatus (String.mk (statusText sampleRecords)) = some (expectedEntries sampleRecords) ∧
      (expectedEntries sampleRecords).length
        = sampleRecords.length - (sampleRecords.filter isDirMarker).length) :=
  ⟨by decide, c4_entries_per_record sampleRecords (by decide)⟩

/-! ## Claim C5 — round-trip of rename-free triples -/

/-- C5: the synthetic status text built from `(statusX, statusY, path)`
triples with no rename markers and no directory-marker paths parses back to
exactly those triples' entries, in order. -/
theorem c5_roundtrip (ts : List (Char × Char × String))
    (h : ∀ t ∈ ts, t.1 ≠ 'R' ∧ nulChar ∉ t.2.2.data ∧ t.2.2.data.getLast? ≠ some '/') :
    getStatus (String.mk (statusText (ts.map tripleRecord)))
      = some ((ts.map tripleRecord).map toEntry) := by
  have hwf : ∀ r ∈ ts.map tripleRecord, wfRecord r = true := by
    intro r hr
    rw [List.mem_map] at hr
    obtain ⟨t, ht, rfl⟩ := hr
    have ht' := h t ht
    simp [wfRecord, tripleRecord, ht'.1, ht'.2.1]
  have hfil : (ts.map tripleRecord).filter (fun r => !isDirMarker r) = ts.map tripleRecord := by
    rw [List.filter_eq_self]
    intro r hr
    rw [List.mem_map] at hr
    obtain ⟨t, ht, rfl⟩ := hr
    simp [isDirMarker, tripleRecord, (h t ht).2.2]
  calc getStatus (String.mk (statusText (ts.map tripleRecord)))
      = some (expectedEntries (ts.map tripleRecord)) :=
        statusLoop_of_drop (ts.map tripleRecord) hwf (statusText (ts.map tripleRecord)) 0 rfl
    _ = some ((ts.map tripleRecord).map toEntry) := by rw [expectedEntries, hfil]

/-- C5, witness: the round-trip theorem on two concrete triples. -/
theorem c5_witness :
    (∀ t ∈ sampleTriples, t.1 ≠ 'R' ∧ nulChar ∉ t.2.2.data ∧ t.2.2.data.getLast? ≠ some '/') ∧
    getStatus (String.mk (statusText (sampleTriples.map tripleRecord)))
      = some ((sampleTriples.map tripleRecord).map toEntry) :=
  ⟨by decide, c5_roundtrip sampleTriples (by decide)⟩

/-! ## Claim C6 — rename records -/

/-- C6: a record whose index-status character is `R`, followed by a
NUL-terminated rename-source field and a NUL-terminated primary path, yields
exactly one entry whose `rename` is the rename-source and whose `path` is the
primary path, consuming exactly the 3-character status prefix plus the two
NUL-terminated fields: the scan resumes at offset
`3 + (|rename| + 1) + (|path| + 1)` past the record's start, where the next
record begins. -/
theorem c6_rename_record (pre suffix : List Char) (y sep : Char) (rn p : String)
    (h1 : nulChar ∉ rn.data) (h2 : nulChar ∉ p.data) :
    parseRecord (pre ++ 'R' :: y :: sep :: (rn.data ++ nulChar :: (p.data ++ nulChar :: suffix)))
        pre.length
      = some ({ x := "R", y := String.singleton y, path := p, rename := some rn },
          pre.length + 3 + (rn.length + 1) + (p.length + 1)) := by
  exact @parseRecord_at_rename _ _ y sep rn p suffix h1 h2 (List.drop_left pre _)

/-- C6, witness: the rename-record theorem at a concrete record preceded and
followed by other bytes. -/
theorem c6_witness :
    nulChar ∉ "old.txt".data ∧ nulChar ∉ "new.txt".data ∧
    parseRecord (['M', ' ', ' '] ++ 'R' :: ' ' :: ' ' ::
        ("old.txt".data ++ nulChar :: ("new.txt".data ++ nulChar :: ['A'])))
        (['M', ' ', ' '] : List Char).length
      = some
        ({ x := "R", y := String.singleton ' ', path := "new.txt", rename := some "old.txt" },
          (['M', ' ', ' '] : List Char).length + 3 + ("old.txt".length + 1)
            + ("new.txt".length + 1)) :=
  ⟨by decide, by decide,
    c6_rename_record ['M', ' ', ' '] ['A'] ' ' ' ' "old.txt" "new.txt"
      (by decide) (by decide)⟩

/-! ## Claim C7 — stderr classification on non-zero exit -/

/-- C7: every non-zero-exit invocation rejects with a `GitError` whose kind
is the first match of the captured stderr against the fixed substring set in
the priority order AuthenticationFailed, NotAGitRepository, BadConfigFile,
CantCreatePipe, RepositoryNotFound, CantAccessRemote (`classifyPriority`,
which agrees with the source's if-chain), while the stdout, stderr and exit
code are attached to the error; when no pattern matches the kind is left
unset. -/
theorem c7_classification (args : List String) (code : Int) (out err : String)
    (h : code ≠ 0) :
    execModel args (.exited code out err)
      = .error (.git
          { message := "Failed to execute git"
            stdout := some out
            stderr := some err
            exitCode := some code
            gitErrorCode := classifyPriority err
            gitCommand := args.head? }) ∧
    ((∀ pr ∈ errorPatterns, ∀ s ∈ pr.1, containsSub err s = false) →
      classifyPriority err = none) := by
  constructor
  · rw [execModel, if_pos h, classifyPriority_eq]
  · intro hnone
    rw [classifyPriority, List.find?_eq_none.mpr]
    · rfl
    · intro pr hpr
      simp only [List.any_eq_true, not_exists, not_and]
      intro s hs
      simp [hnone pr hpr s hs]

/-- C7, witness: a non-zero exit whose stderr holds an authentication-failure
phrase is classified `AuthenticationFailed`, with stdout, stderr and exit
code attached. -/
theorem c7_witness :
    (1 : Int) ≠ 0 ∧
    classifyPriority "fatal: Authentication failed for repo"
      = some "AuthenticationFailed" ∧
    execModel ["fetch"] (.exited 1 "partial" "fatal: Authentication failed for repo")
      = .error (.git
          { message := "Failed to execute git"
            stdout := some "partial"
            stderr := some "fatal: Authentication failed for repo"
            exitCode := some 1
            gitErrorCode := classifyPriority "fatal: Authentication failed for repo"
            gitCommand := some "fetch" }) :=
  ⟨by decide, by decide,
    (c7_classification ["fetch"] 1 "partial" "fatal: Authentication failed for repo"
      (by decide)).1⟩

/-! ## Claim C8 — termination of the status scan -/

/-- C8, counterexample: on the four-byte input `AB x`, whose record has no
NUL terminator, the scan does not terminate — `readName`'s loop condition
`charAt(i) !== '\u0000'` holds at every index (the input contains no NUL and
`charAt` is `""` past the end), so the claim that the parse terminates for
every input text is false.  In the embedding the divergence is the `none`
result. -/
theorem c8_divergence_without_terminator :
    getStatus (String.mk ['A', 'B', ' ', 'x']) = none ∧
      nulChar ∉ (['A', 'B', ' ', 'x'] : List Char) :=
  ⟨statusLoop_none_of_parse_none (by decide) (by decide), by decide⟩

/-- C8, amended: on every status text in which each scanned field carries its
NUL terminator — the serialization of any list of well-formed records, of any
length, with nothing after the final record's own terminator — the scan is a
single finite left-to-right pass: it terminates with a result at the input's
end.  (For arbitrary input text this fails: a final record whose path field
lacks the terminator makes `readName` loop forever.) -/
theorem c8_terminates_on_wire_format (rs : List StatusRecord)
    (h : ∀ r ∈ rs, wfRecord r = true) :
    (getStatus (String.mk (statusText rs))).isSome = true := by
  show (statusLoop (statusText rs) 0).isSome = true
  rw [statusLoop_of_drop rs h (statusText rs) 0 rfl]
  rfl

/-- C8, witness: the termination theorem on the three sample records. -/
theorem c8_witness :
    (∀ r ∈ sampleRecords, wfRecord r = true) ∧
    (getStatus (String.mk (statusText sampleRecords))).isSome = true :=
  ⟨by decide, c8_terminates_on_wire_format sampleRecords (by decide)⟩

/-! ## Claim C9 — listener release of `exec`'s three-way join -/

/-- C9: on a successful settlement every listener registered by the
invocation is released (the collected disposables are all run), but when the
join rejects — the child's `error` event, e.g. a spawn failure — the
`dispose(disposables)` statement after the `await` is never reached and five
of the six listeners stay attached (only the fired `once('error')` listener
was auto-removed by the emitter).  The code therefore violates the claimed
release-regardless-of-outcome: the disposables array is collected precisely
to release every registration, but no `try/finally` guards the join. -/
theorem c9_listener_leak_on_failure :
    (execSettle (.exited 0 "out" "err")).2 = [] ∧
    (execSettle (.spawnError "ENOENT")).2
      = [⟨"child", "exit", true⟩, ⟨"child.stdout", "data", false⟩,
         ⟨"child.stdout", "close", true⟩, ⟨"child.stderr", "data", false⟩,
         ⟨"child.stderr", "close", true⟩] := by
  constructor <;> rfl

/-! ## Claim C10 — empty config value is omitted -/

/-- C10: `Repository.config` pushes the value only when it is truthy, so a
call with the empty-string value builds exactly the argument list of a call
with no value at all — the two are indistinguishable at the subprocess
interface. -/
theorem c10_empty_value_omitted (scope key : String) :
    configArgs scope key (some "") = configArgs scope key none := by
  rw [configArgs, configArgs]
  simp

end GitAutoconfig
